import Mathlib

/-!
# Task tracker: access gate, credential store and task list handlers

A shallow embedding of

* `src/backend/middlewares/authMiddleware.js` (`authMiddleware`),
* `src/backend/services/authService.js` (`createUser`),
* `src/frontend/src/components/Tasks/Tasks.tsx` (`handleSaveTask`,
  `handleToggleComplete`),

followed by the properties of these functions.

Conventions.  JavaScript objects with a fixed, flat shape are association
lists from field names to scalar values (`Obj`), so that the *names* of the
fields that travel in a response, a request body or a returned row are part
of the model.  Effects (calls into `jsonwebtoken`, the `next` callback, the
response object, the HTTP client) are recorded in an explicit trace.
-/

set_option autoImplicit false

namespace TaskTracker

/-! ## Values -/

/-- Scalar JavaScript values that occur in the flat objects of this program. -/
inductive Value where
  | null
  | bool (b : Bool)
  | num (n : Int)
  | str (s : String)
  deriving DecidableEq, Repr, Inhabited

/-- A flat JavaScript object: field names with their values, in insertion order. -/
abbrev Obj := List (String × Value)

/-- Field names of an object. -/
def Obj.keys (o : Obj) : List String := o.map Prod.fst

/-- Field access `o[k]`; `none` is `undefined`. -/
def Obj.get (o : Obj) (k : String) : Option Value := (o.lookup k)

/-! ## Strings -/

/-- Replace the first occurrence of `pat` in a character sequence by `rep`
(the sequence is returned unchanged when `pat` does not occur). -/
def replaceFirstChars (pat rep : List Char) : List Char → List Char
  | [] => if pat.isEmpty then rep else []
  | c :: cs =>
    if pat.isPrefixOf (c :: cs) then rep ++ (c :: cs).drop pat.length
    else c :: replaceFirstChars pat rep cs

/-- JavaScript `s.replace(pat, rep)` for a string pattern `pat` and a
replacement `rep` without `$` patterns: only the first occurrence is replaced.
Header values are read as sequences of characters; the pattern used by the
program is ASCII. -/
def jsReplace (s pat rep : String) : String :=
  ⟨replaceFirstChars pat.data rep.data s.data⟩

/-- JavaScript truthiness of a value of type `string | undefined | null`:
`undefined`, `null` and the empty string are falsy. -/
def truthy : Option String → Bool
  | none => false
  | some s => !(s == "")

/-! ## Access gate: `authMiddleware` -/

/-- The errors `jwt.verify` throws. -/
inductive JwtError where
  | JsonWebTokenError (message : String)
  | TokenExpiredError
  | NotBeforeError
  deriving DecidableEq, Repr

/-- The part of the Express request the middleware touches: the value of
`req.header("Authorization")` and the property `req.user`. -/
structure Req where
  authorization : Option String
  user : Option Obj
  deriving DecidableEq, Repr

/-- Observable steps of one run of the middleware, in order. -/
inductive Event where
  /-- The call `jwt.verify(token, SECRET_KEY)` with this `token`. -/
  | verify (token : String)
  /-- The assignment `req.user = decoded`. -/
  | setUser (decoded : Obj)
  /-- The call `next()`, with the request as the downstream handler sees it. -/
  | next (req : Req)
  /-- The call `res.status(code).json(body)`. -/
  | respond (code : Nat) (body : Obj)
  deriving DecidableEq, Repr

/-- Result of one run: the request afterwards and what happened. -/
structure Run where
  req : Req
  trace : List Event
  deriving DecidableEq, Repr

/-- Body of the response for a missing header. -/
def noTokenBody : Obj := [("error", .str "Access denied. No token provided.")]

/-- Body of the response written by the `catch` block. -/
def invalidTokenBody : Obj := [("error", .str "Invalid token")]

/-- The middleware of `authMiddleware.js`.

`secretKey` is `process.env.JWT_SECRET`; `verify` is `jwt.verify` (it returns
the decoded payload or throws); `next` is the downstream callback, which
either returns or throws. -/
def authMiddleware (secretKey : Option String)
    (verify : String → Option String → Except JwtError Obj)
    (next : Req → Except String Unit) (req : Req) : Run :=
  match req.authorization with
  | none => { req := req, trace := [.respond 401 noTokenBody] }
  | some token =>
    if !truthy (some token) then
      { req := req, trace := [.respond 401 noTokenBody] }
    else
      let arg := jsReplace token "Bearer " ""
      match verify arg secretKey with
      | .error _ =>
        { req := req, trace := [.verify arg, .respond 401 invalidTokenBody] }
      | .ok decoded =>
        let req1 : Req := { req with user := some decoded }
        match next req1 with
        | .ok _ =>
          { req := req1, trace := [.verify arg, .setUser decoded, .next req1] }
        | .error _ =>
          { req := req1,
            trace := [.verify arg, .setUser decoded, .next req1,
                      .respond 401 invalidTokenBody] }

/-- The strings handed to `jwt.verify` during a run. -/
def verifyArgs : List Event → List String
  | [] => []
  | .verify t :: es => t :: verifyArgs es
  | _ :: es => verifyArgs es

/-- Number of calls of `next` during a run. -/
def nextCalls : List Event → Nat
  | [] => 0
  | .next _ :: es => nextCalls es + 1
  | _ :: es => nextCalls es

/-- Number of assignments to `req.user` during a run. -/
def userSets : List Event → Nat
  | [] => 0
  | .setUser _ :: es => userSets es + 1
  | _ :: es => userSets es

/-- The responses written during a run. -/
def responses : List Event → List (Nat × Obj)
  | [] => []
  | .respond c b :: es => (c, b) :: responses es
  | _ :: es => responses es

/-- Whether a 401 response was written during a run. -/
def wrote401 (es : List Event) : Bool := (responses es).any (fun r => r.1 == 401)

/-- A toy verifier for concrete runs: the token `good` carries user 7, the
token `old` is expired and everything else is malformed. -/
def sampleVerify (token : String) (_secret : Option String) : Except JwtError Obj :=
  if token == "good" then .ok [("id", .num 7)]
  else if token == "old" then .error .TokenExpiredError
  else .error (.JsonWebTokenError "jwt malformed")

/-! ## Credential store: `createUser` -/

/-- A row of the `users` table: the columns the `INSERT` of `createUser`
names (`username`, `password`) and the `id` it asks back. -/
structure UserRow where
  id : Int
  username : String
  password : String
  deriving DecidableEq, Repr

/-- All columns of a row, by name. -/
def UserRow.toObj (r : UserRow) : Obj :=
  [("id", .num r.id), ("username", .str r.username), ("password", .str r.password)]

/-- The persistent store behind `pool`: the rows of `users` in insertion
order and the next identifier the table hands out. -/
structure Db where
  users : List UserRow
  nextId : Int
  deriving DecidableEq, Repr

/-- Failures of the store, named as in the error taxonomy of the specification. -/
inductive StoreError where
  | DuplicateUsername
  | StorageFailure
  deriving DecidableEq, Repr

/-- The projection `RETURNING c₁, …, cₙ` of a row. -/
def returning (cols : List String) (row : Obj) : Obj :=
  cols.filterMap (fun c => (row.lookup c).map (fun v => (c, v)))

/-- Modelled from the spec: the `users` table and the statement
`INSERT INTO users (username, password) VALUES ($1, $2) RETURNING cols`
run by `pool.query`; the table definition is not part of the sources.
The username is unique (case-sensitive exact match): inserting a username
that is already stored fails with `DuplicateUsername` and writes nothing;
otherwise one row with a new identifier is appended and the requested
columns of that row are returned as the single result row. -/
def Db.insertUser (db : Db) (username password : String) (cols : List String) :
    Except StoreError (List Obj) × Db :=
  if db.users.any (fun u => u.username == username) then
    (.error .DuplicateUsername, db)
  else
    let row : UserRow := { id := db.nextId, username := username, password := password }
    (.ok [returning cols row.toObj],
     { users := db.users ++ [row], nextId := db.nextId + 1 })

/-- The function `createUser` of `authService.js`: `hash` is `bcrypt.hash`
(for the salt drawn in this call); the result is `result.rows[0]`
(`none` is `undefined`) or the error the query rejected with, together with
the store afterwards. -/
def createUser (hash : String → Nat → String) (db : Db) (username password : String) :
    Except StoreError (Option Obj) × Db :=
  let hashedPassword := hash password 10
  match db.insertUser username hashedPassword ["id", "username"] with
  | (.error e, db1) => (.error e, db1)
  | (.ok rows, db1) => (.ok rows.head?, db1)

/-- A stand-in for `bcrypt.hash` in concrete runs. -/
def sampleHash (password : String) (rounds : Nat) : String :=
  "$2a$" ++ toString rounds ++ "$" ++ String.mk password.data.reverse

/-! ## Task list component: `Tasks.tsx` -/

/-- The interface `Task` of `Tasks.tsx`. -/
structure Task where
  id : Int
  title : String
  description : String
  is_complete : Bool
  deriving DecidableEq, Repr

/-- A task as the object that is serialised into a request body. -/
def Task.toObj (t : Task) : Obj :=
  [("id", .num t.id), ("title", .str t.title), ("description", .str t.description),
   ("is_complete", .bool t.is_complete)]

/-- The state `newTask` of the dialog. -/
structure Draft where
  title : String
  description : String
  deriving DecidableEq, Repr

/-- The state variables of the component `Tasks`. -/
structure State where
  tasks : List Task
  openDialog : Bool
  editingTask : Option Task
  newTask : Draft
  loading : Bool
  snackbarOpen : Bool
  snackbarMessage : String
  deriving DecidableEq, Repr

/-- HTTP methods used by the component. -/
inductive Method where
  | GET | POST | PUT | DELETE
  deriving DecidableEq, Repr

/-- A request handed to the HTTP client `api`. -/
structure Request where
  method : Method
  url : String
  body : Obj
  headers : Obj
  deriving DecidableEq, Repr

/-- The header object `{ Authorization: "Bearer " + token }`. -/
def authHeaders (token : String) : Obj := [("Authorization", .str ("Bearer " ++ token))]

/-- The template string for the resource of task `id`. -/
def taskUrl (id : Int) : String := "/tasks/" ++ toString id

/-- The result of a handler: the state after its updates and the requests it
issued, in order. -/
structure Outcome where
  state : State
  requests : List Request
  deriving DecidableEq, Repr

/-- The handler `handleSaveTask`.  `token` is `localStorage.getItem("token")`;
`api r` is `none` when the request `r` is rejected and `some data` with the
response data otherwise. -/
def handleSaveTask (token : Option String) (api : Request → Option Task) (s : State) :
    Outcome :=
  match token with
  | none =>
    { state := { s with snackbarMessage := "No authentication token found",
                        snackbarOpen := true },
      requests := [] }
  | some tok =>
    if !truthy (some tok) then
      { state := { s with snackbarMessage := "No authentication token found",
                          snackbarOpen := true },
        requests := [] }
    else
      match s.editingTask with
      | some editingTask =>
        let r : Request :=
          { method := .PUT, url := taskUrl editingTask.id,
            body := [("title", .str s.newTask.title),
                     ("description", .str s.newTask.description),
                     ("isComplete", .bool false)],
            headers := authHeaders tok }
        match api r with
        | some _ =>
          { state :=
              { s with
                tasks := s.tasks.map (fun task =>
                  if task.id = editingTask.id then
                    { task with title := s.newTask.title,
                                description := s.newTask.description }
                  else task),
                snackbarMessage := "Task updated successfully",
                openDialog := false,
                newTask := { title := "", description := "" },
                loading := false,
                snackbarOpen := true },
            requests := [r] }
        | none =>
          { state := { s with snackbarMessage := "Error saving task",
                              loading := false, snackbarOpen := true },
            requests := [r] }
      | none =>
        let r : Request :=
          { method := .POST, url := "/tasks",
            body := [("title", .str s.newTask.title),
                     ("description", .str s.newTask.description)],
            headers := authHeaders tok }
        match api r with
        | some data =>
          { state :=
              { s with
                tasks := s.tasks ++ [data],
                snackbarMessage := "Task added successfully",
                openDialog := false,
                newTask := { title := "", description := "" },
                loading := false,
                snackbarOpen := true },
            requests := [r] }
        | none =>
          { state := { s with snackbarMessage := "Error saving task",
                              loading := false, snackbarOpen := true },
            requests := [r] }

/-- The handler `handleToggleComplete`, with `token` and `api` as in
`handleSaveTask`. -/
def handleToggleComplete (token : Option String) (api : Request → Option Task)
    (s : State) (id : Int) : Outcome :=
  match token with
  | none =>
    { state := { s with snackbarMessage := "No authentication token found",
                        snackbarOpen := true },
      requests := [] }
  | some tok =>
    if !truthy (some tok) then
      { state := { s with snackbarMessage := "No authentication token found",
                          snackbarOpen := true },
        requests := [] }
    else
      match s.tasks.find? (fun task => task.id = id) with
      | some taskToUpdate =>
        let updatedTask : Task :=
          { taskToUpdate with is_complete := !taskToUpdate.is_complete }
        let r : Request :=
          { method := .PUT, url := taskUrl id, body := updatedTask.toObj,
            headers := authHeaders tok }
        match api r with
        | some _ =>
          { state :=
              { s with
                tasks := s.tasks.map (fun task => if task.id = id then updatedTask else task),
                snackbarMessage := "Task status updated",
                loading := false,
                snackbarOpen := true },
            requests := [r] }
        | none =>
          { state := { s with snackbarMessage := "Error toggling task completion",
                              loading := false, snackbarOpen := true },
            requests := [r] }
      | none =>
        { state := { s with loading := false, snackbarOpen := true }, requests := [] }

/-- The completion status the local task list records for task `id`. -/
def localStatus (tasks : List Task) (id : Int) : Option Bool :=
  (tasks.find? (fun task => task.id = id)).map (fun t => t.is_complete)

/-- An HTTP client for concrete runs: every request succeeds. -/
def sampleApi (_r : Request) : Option Task :=
  some { id := 0, title := "", description := "", is_complete := false }

/-- A component state for concrete runs, showing the given tasks with the
dialog closed. -/
def sampleState (tasks : List Task) : State :=
  { tasks := tasks, openDialog := false, editingTask := none,
    newTask := { title := "", description := "" }, loading := false,
    snackbarOpen := false, snackbarMessage := "" }

/-- A component state for concrete runs in which the dialog edits `task`
with the draft `draft`. -/
def editingState (tasks : List Task) (task : Task) (draft : Draft) : State :=
  { tasks := tasks, openDialog := true, editingTask := some task,
    newTask := draft, loading := false, snackbarOpen := false, snackbarMessage := "" }

/-! ## Properties of the access gate -/

theorem replaceFirstChars_append (pat rep t : List Char) (hp : pat ≠ []) :
    replaceFirstChars pat rep (pat ++ t) = rep ++ t := by
  cases pat with
  | nil => exact absurd rfl hp
  | cons p ps =>
    have h1 : (p :: ps).isPrefixOf (p :: (ps ++ t)) = true := by
      simp
    have h2 : List.drop (p :: ps).length (p :: (ps ++ t)) = t := by
      simp
    show replaceFirstChars (p :: ps) rep (p :: (ps ++ t)) = rep ++ t
    rw [replaceFirstChars, if_pos h1, h2]

theorem replaceFirstChars_absent (pat rep : List Char) :
    ∀ s : List Char, ¬ pat <:+: s → replaceFirstChars pat rep s = s := by
  intro s
  induction s with
  | nil =>
    intro h
    have hp : pat ≠ [] := by
      rintro rfl
      exact h List.nil_infix
    cases pat with
    | nil => exact absurd rfl hp
    | cons p ps => simp [replaceFirstChars]
  | cons c cs ih =>
    intro h
    have h1 : ¬ pat <+: c :: cs := fun hpre => h hpre.isInfix
    have h1b : pat.isPrefixOf (c :: cs) = false := by
      cases hb : pat.isPrefixOf (c :: cs) with
      | false => rfl
      | true => exact absurd (List.isPrefixOf_iff_prefix.mp hb) h1
    have h2 : ¬ pat <:+: cs := by
      intro hin
      apply h
      obtain ⟨a, b, hab⟩ := hin
      exact ⟨c :: a, b, by simp [← hab]⟩
    rw [replaceFirstChars]
    simp only [h1b]
    simp [ih h2]

theorem jsReplace_bearer (t : String) : jsReplace ("Bearer " ++ t) "Bearer " "" = t := by
  have h := replaceFirstChars_append "Bearer ".data "".data t.data (by decide)
  unfold jsReplace
  rw [String.data_append, h]
  rfl

/-! ## The access gate: missing header, failed and successful verification -/

/-- C1: when the `Authorization` header is absent or is the empty string,
the middleware writes exactly one response, with status 401 and an `error`
body; it does not call `jwt.verify`, does not call `next`, and leaves the
request (in particular `req.user`) as it was. -/
theorem authMiddleware_no_header (secretKey : Option String)
    (verify : String → Option String → Except JwtError Obj)
    (next : Req → Except String Unit) (req : Req)
    (h : req.authorization = none ∨ req.authorization = some "") :
    (authMiddleware secretKey verify next req).trace = [.respond 401 noTokenBody] ∧
    noTokenBody.keys = ["error"] ∧
    verifyArgs (authMiddleware secretKey verify next req).trace = [] ∧
    nextCalls (authMiddleware secretKey verify next req).trace = 0 ∧
    userSets (authMiddleware secretKey verify next req).trace = 0 ∧
    (authMiddleware secretKey verify next req).req = req := by
  have key : authMiddleware secretKey verify next req
      = { req := req, trace := [.respond 401 noTokenBody] } := by
    rcases h with h | h <;> simp [authMiddleware, h, truthy]
  rw [key]
  exact ⟨rfl, rfl, rfl, rfl, rfl, rfl⟩

theorem authMiddleware_no_header_witness :
    (authMiddleware (some "k") sampleVerify (fun _ => .ok ()) ⟨some "", none⟩).trace
      = [.respond 401 noTokenBody] ∧
    noTokenBody.keys = ["error"] ∧
    verifyArgs (authMiddleware (some "k") sampleVerify (fun _ => .ok ()) ⟨some "", none⟩).trace
      = [] ∧
    nextCalls (authMiddleware (some "k") sampleVerify (fun _ => .ok ()) ⟨some "", none⟩).trace
      = 0 ∧
    userSets (authMiddleware (some "k") sampleVerify (fun _ => .ok ()) ⟨some "", none⟩).trace
      = 0 ∧
    (authMiddleware (some "k") sampleVerify (fun _ => .ok ()) ⟨some "", none⟩).req
      = ⟨some "", none⟩ :=
  authMiddleware_no_header (some "k") sampleVerify (fun _ => .ok ()) ⟨some "", none⟩
    (Or.inr rfl)

/-- C2: when the header is a non-empty string and `jwt.verify` throws on the
string handed to it, the middleware writes exactly one response, status 401
with body `{error: "Invalid token"}`, whatever the error thrown; it does not
call `next` and leaves the request (in particular `req.user`) as it was. -/
theorem authMiddleware_verify_fails (secretKey : Option String)
    (verify : String → Option String → Except JwtError Obj)
    (next : Req → Except String Unit) (req : Req) (header : String) (e : JwtError)
    (hreq : req.authorization = some header) (hne : header ≠ "")
    (hv : verify (jsReplace header "Bearer " "") secretKey = .error e) :
    (authMiddleware secretKey verify next req).trace
      = [.verify (jsReplace header "Bearer " ""),
         .respond 401 [("error", .str "Invalid token")]] ∧
    responses (authMiddleware secretKey verify next req).trace
      = [(401, [("error", .str "Invalid token")])] ∧
    nextCalls (authMiddleware secretKey verify next req).trace = 0 ∧
    userSets (authMiddleware secretKey verify next req).trace = 0 ∧
    (authMiddleware secretKey verify next req).req = req := by
  have key : authMiddleware secretKey verify next req
      = { req := req,
          trace := [.verify (jsReplace header "Bearer " ""),
                    .respond 401 invalidTokenBody] } := by
    simp [authMiddleware, hreq, truthy, hne, hv]
  rw [key]
  exact ⟨rfl, rfl, rfl, rfl, rfl⟩

theorem authMiddleware_verify_fails_witness :
    (authMiddleware (some "k") sampleVerify (fun _ => .ok ()) ⟨some "Bearer old", none⟩).trace
      = [.verify (jsReplace "Bearer old" "Bearer " ""),
         .respond 401 [("error", .str "Invalid token")]] ∧
    responses
        (authMiddleware (some "k") sampleVerify (fun _ => .ok ()) ⟨some "Bearer old", none⟩).trace
      = [(401, [("error", .str "Invalid token")])] ∧
    nextCalls
        (authMiddleware (some "k") sampleVerify (fun _ => .ok ()) ⟨some "Bearer old", none⟩).trace
      = 0 ∧
    userSets
        (authMiddleware (some "k") sampleVerify (fun _ => .ok ()) ⟨some "Bearer old", none⟩).trace
      = 0 ∧
    (authMiddleware (some "k") sampleVerify (fun _ => .ok ()) ⟨some "Bearer old", none⟩).req
      = ⟨some "Bearer old", none⟩ :=
  authMiddleware_verify_fails (some "k") sampleVerify (fun _ => .ok ())
    ⟨some "Bearer old", none⟩ "Bearer old" .TokenExpiredError rfl (by decide) rfl

/-- C3: when the header is a non-empty string and `jwt.verify` returns
`decoded` for the string handed to it, the middleware assigns `decoded` to
`req.user` and then calls `next`, which sees the request with `req.user`
set; `next` is called exactly once and `req.user` is still `decoded` at the
end, whether `next` returns or throws. -/
theorem authMiddleware_verify_succeeds (secretKey : Option String)
    (verify : String → Option String → Except JwtError Obj)
    (next : Req → Except String Unit) (req : Req) (header : String) (decoded : Obj)
    (hreq : req.authorization = some header) (hne : header ≠ "")
    (hv : verify (jsReplace header "Bearer " "") secretKey = .ok decoded) :
    (∃ rest, (authMiddleware secretKey verify next req).trace
        = [.verify (jsReplace header "Bearer " ""), .setUser decoded,
           .next { req with user := some decoded }] ++ rest ∧
        nextCalls rest = 0 ∧ userSets rest = 0) ∧
    nextCalls (authMiddleware secretKey verify next req).trace = 1 ∧
    (authMiddleware secretKey verify next req).req.user = some decoded := by
  cases hn : next { req with user := some decoded } with
  | ok u =>
    simp only [hreq] at hn
    have key : authMiddleware secretKey verify next req
        = { req := { req with user := some decoded },
            trace := [.verify (jsReplace header "Bearer " ""), .setUser decoded,
                      .next { req with user := some decoded }] } := by
      simp [authMiddleware, hreq, truthy, hne, hv, hn]
    rw [key]
    exact ⟨⟨[], rfl, rfl, rfl⟩, rfl, rfl⟩
  | error msg =>
    simp only [hreq] at hn
    have key : authMiddleware secretKey verify next req
        = { req := { req with user := some decoded },
            trace := [.verify (jsReplace header "Bearer " ""), .setUser decoded,
                      .next { req with user := some decoded },
                      .respond 401 invalidTokenBody] } := by
      simp [authMiddleware, hreq, truthy, hne, hv, hn]
    rw [key]
    exact ⟨⟨[.respond 401 invalidTokenBody], rfl, rfl, rfl⟩, rfl, rfl⟩

theorem authMiddleware_verify_succeeds_witness :
    (∃ rest,
        (authMiddleware (some "k") sampleVerify (fun _ => .ok ())
          ⟨some "Bearer good", none⟩).trace
        = [.verify (jsReplace "Bearer good" "Bearer " ""), .setUser [("id", .num 7)],
           .next { (⟨some "Bearer good", none⟩ : Req) with user := some [("id", .num 7)] }]
          ++ rest ∧
        nextCalls rest = 0 ∧ userSets rest = 0) ∧
    nextCalls
        (authMiddleware (some "k") sampleVerify (fun _ => .ok ())
          ⟨some "Bearer good", none⟩).trace = 1 ∧
    (authMiddleware (some "k") sampleVerify (fun _ => .ok ())
        ⟨some "Bearer good", none⟩).req.user = some [("id", .num 7)] :=
  authMiddleware_verify_succeeds (some "k") sampleVerify (fun _ => .ok ())
    ⟨some "Bearer good", none⟩ "Bearer good" [("id", .num 7)] rfl (by decide) rfl

/-! ## The access gate: the string handed to `jwt.verify` -/

/-- C4, as stated, fails: for the headers `bearer good` and `Token good`
(a scheme word, one space, the credential `good`) the string handed to
`jwt.verify` is the whole header, not the credential; and a header whose
credential contains `Bearer ` loses that part instead of its scheme. -/
theorem authMiddleware_other_scheme_kept :
    verifyArgs (authMiddleware (some "k") sampleVerify (fun _ => .ok ())
        ⟨some "bearer good", none⟩).trace = ["bearer good"] ∧
    verifyArgs (authMiddleware (some "k") sampleVerify (fun _ => .ok ())
        ⟨some "Token good", none⟩).trace = ["Token good"] ∧
    verifyArgs (authMiddleware (some "k") sampleVerify (fun _ => .ok ())
        ⟨some "Token Bearer good", none⟩).trace = ["Token good"] ∧
    ("bearer good" : String) ≠ "good" ∧ ("Token good" : String) ≠ "good" ∧
    ("Token good" : String) ≠ "Bearer good" := by
  decide

/-- C4, amended: for every header `Bearer ` followed by a credential, the
string handed to `jwt.verify` is exactly the credential; for every non-empty
header in which `Bearer ` does not occur, it is the whole header. -/
theorem authMiddleware_verify_argument (secretKey : Option String)
    (verify : String → Option String → Except JwtError Obj)
    (next : Req → Except String Unit) (user : Option Obj) :
    (∀ t : String,
      verifyArgs (authMiddleware secretKey verify next ⟨some ("Bearer " ++ t), user⟩).trace
        = [t]) ∧
    (∀ header : String, header ≠ "" → ¬ "Bearer ".data <:+: header.data →
      verifyArgs (authMiddleware secretKey verify next ⟨some header, user⟩).trace
        = [header]) := by
  have run : ∀ header : String, header ≠ "" →
      verifyArgs (authMiddleware secretKey verify next ⟨some header, user⟩).trace
        = [jsReplace header "Bearer " ""] := by
    intro header hne
    cases hv : verify (jsReplace header "Bearer " "") secretKey with
    | error e => simp [authMiddleware, truthy, hne, hv, verifyArgs]
    | ok decoded =>
      cases hn : next { authorization := some header, user := some decoded } <;>
        simp [authMiddleware, truthy, hne, hv, hn, verifyArgs]
  constructor
  · intro t
    have hne : "Bearer " ++ t ≠ "" := by
      intro h
      have := congrArg String.data h
      rw [String.data_append] at this
      exact absurd this (by simp)
    rw [run _ hne, jsReplace_bearer]
  · intro header hne hno
    rw [run _ hne]
    unfold jsReplace
    rw [replaceFirstChars_absent _ _ _ hno]

theorem authMiddleware_verify_argument_witness :
    verifyArgs (authMiddleware (some "k") sampleVerify (fun _ => .ok ())
        ⟨some ("Bearer " ++ "good"), none⟩).trace = ["good"] ∧
    verifyArgs (authMiddleware (some "k") sampleVerify (fun _ => .ok ())
        ⟨some "bearer good", none⟩).trace = ["bearer good"] :=
  ⟨(authMiddleware_verify_argument (some "k") sampleVerify (fun _ => .ok ()) none).1 "good",
   (authMiddleware_verify_argument (some "k") sampleVerify (fun _ => .ok ()) none).2
     "bearer good" (by decide) (by decide)⟩

/-! ## The access gate: a downstream handler that throws -/

/-- C10, as stated for every `next` including one that raises, fails: for
the header `Bearer good`, whose token verifies, and a `next` that throws,
the middleware writes a 401 response with body `{error: "Invalid token"}`
although the header is present and verification succeeded, and it writes it
after `next` has been called. -/
theorem authMiddleware_next_throws :
    sampleVerify (jsReplace "Bearer good" "Bearer " "") (some "k") = .ok [("id", .num 7)] ∧
    (authMiddleware (some "k") sampleVerify (fun _ => .error "boom")
        ⟨some "Bearer good", none⟩).trace
      = [.verify "good", .setUser [("id", .num 7)],
         .next ⟨some "Bearer good", some [("id", .num 7)]⟩,
         .respond 401 [("error", .str "Invalid token")]] ∧
    wrote401 (authMiddleware (some "k") sampleVerify (fun _ => .error "boom")
        ⟨some "Bearer good", none⟩).trace = true ∧
    nextCalls (authMiddleware (some "k") sampleVerify (fun _ => .error "boom")
        ⟨some "Bearer good", none⟩).trace = 1 := by
  refine ⟨rfl, ?_, ?_, ?_⟩ <;> decide

/-- C10, amended: for every request and every `next` callback that returns
when called (as the `next` of the Express router does), the middleware
writes a 401 response if and only if the `Authorization` header is absent
or empty, or `jwt.verify` throws on the string handed to it; and whenever it
writes a 401 response, `next` has not been called. -/
theorem authMiddleware_401_iff (secretKey : Option String)
    (verify : String → Option String → Except JwtError Obj)
    (next : Req → Except String Unit) (req : Req)
    (hnext : ∀ r, next r = .ok ()) :
    (wrote401 (authMiddleware secretKey verify next req).trace = true ↔
      (req.authorization = none ∨ req.authorization = some "" ∨
        ∃ header e, req.authorization = some header ∧
          verify (jsReplace header "Bearer " "") secretKey = .error e)) ∧
    (wrote401 (authMiddleware secretKey verify next req).trace = true →
      nextCalls (authMiddleware secretKey verify next req).trace = 0) := by
  cases hreq : req.authorization with
  | none =>
    have key : authMiddleware secretKey verify next req
        = { req := req, trace := [.respond 401 noTokenBody] } := by
      simp [authMiddleware, hreq]
    rw [key]
    exact ⟨⟨fun _ => Or.inl rfl, fun _ => rfl⟩, fun _ => rfl⟩
  | some header =>
    by_cases hne : header = ""
    · have key : authMiddleware secretKey verify next req
          = { req := req, trace := [.respond 401 noTokenBody] } := by
        simp [authMiddleware, hreq, truthy, hne]
      rw [key]
      exact ⟨⟨fun _ => Or.inr (Or.inl (by rw [hne])), fun _ => rfl⟩, fun _ => rfl⟩
    · cases hv : verify (jsReplace header "Bearer " "") secretKey with
      | error e =>
        have key : authMiddleware secretKey verify next req
            = { req := req,
                trace := [.verify (jsReplace header "Bearer " ""),
                          .respond 401 invalidTokenBody] } := by
          simp [authMiddleware, hreq, truthy, hne, hv]
        rw [key]
        exact ⟨⟨fun _ => Or.inr (Or.inr ⟨header, e, rfl, hv⟩), fun _ => rfl⟩,
          fun _ => rfl⟩
      | ok decoded =>
        have key : authMiddleware secretKey verify next req
            = { req := { req with user := some decoded },
                trace := [.verify (jsReplace header "Bearer " ""), .setUser decoded,
                          .next { req with user := some decoded }] } := by
          simp [authMiddleware, hreq, truthy, hne, hv, hnext]
        rw [key]
        have hno : wrote401 [Event.verify (jsReplace header "Bearer " ""),
            Event.setUser decoded, Event.next { req with user := some decoded }] = false := rfl
        simp only [hno]
        refine ⟨⟨fun h => absurd h (by decide), ?_⟩, fun h => absurd h (by decide)⟩
        rintro (h | h | ⟨header1, e, h1, h2⟩)
        · cases h
        · exact absurd (Option.some.inj h) hne
        · cases Option.some.inj h1
          rw [hv] at h2
          cases h2

theorem authMiddleware_401_iff_witness :
    (wrote401 (authMiddleware (some "k") sampleVerify (fun _ => .ok ())
        ⟨some "Bearer old", none⟩).trace = true ↔
      ((⟨some "Bearer old", none⟩ : Req).authorization = none ∨
        (⟨some "Bearer old", none⟩ : Req).authorization = some "" ∨
        ∃ header e, (⟨some "Bearer old", none⟩ : Req).authorization = some header ∧
          sampleVerify (jsReplace header "Bearer " "") (some "k") = .error e)) ∧
    (wrote401 (authMiddleware (some "k") sampleVerify (fun _ => .ok ())
        ⟨some "Bearer old", none⟩).trace = true →
      nextCalls (authMiddleware (some "k") sampleVerify (fun _ => .ok ())
        ⟨some "Bearer old", none⟩).trace = 0) :=
  authMiddleware_401_iff (some "k") sampleVerify (fun _ => .ok ())
    ⟨some "Bearer old", none⟩ (fun _ => rfl)

/-! ## The credential store -/

theorem insertUser_of_taken (db : Db) (username password : String) (cols : List String)
    (h : ∃ u ∈ db.users, u.username = username) :
    db.insertUser username password cols = (.error .DuplicateUsername, db) := by
  have hany : db.users.any (fun u => u.username == username) = true := by
    obtain ⟨u, hu, hname⟩ := h
    exact List.any_eq_true.mpr ⟨u, hu, by simp [hname]⟩
  simp [Db.insertUser, hany]

theorem insertUser_of_free (db : Db) (username password : String) (cols : List String)
    (h : ∀ u ∈ db.users, u.username ≠ username) :
    db.insertUser username password cols
      = (.ok [returning cols
                (UserRow.toObj { id := db.nextId, username := username, password := password })],
         { users := db.users ++ [{ id := db.nextId, username := username,
                                   password := password }],
           nextId := db.nextId + 1 }) := by
  have hany : db.users.any (fun u => u.username == username) = false := by
    rw [List.any_eq_false]
    intro u hu
    simpa using h u hu
  simp [Db.insertUser, hany]

/-- C5: on a store that already holds a user with the given username,
`createUser` fails with `DuplicateUsername` and the store is unchanged; on a
store that holds no such user it succeeds and the stored users are the old
ones followed by exactly one new user, with the given username and the hash
of the password. -/
theorem createUser_duplicate_or_added (hash : String → Nat → String) (db : Db)
    (username password : String) :
    ((∃ u ∈ db.users, u.username = username) →
      createUser hash db username password = (.error .DuplicateUsername, db)) ∧
    ((∀ u ∈ db.users, u.username ≠ username) →
      ∃ row newUser,
        (createUser hash db username password).1 = .ok (some row) ∧
        (createUser hash db username password).2.users = db.users ++ [newUser] ∧
        (createUser hash db username password).2.users.length = db.users.length + 1 ∧
        newUser.username = username ∧ newUser.password = hash password 10) := by
  constructor
  · intro h
    simp [createUser, insertUser_of_taken db username (hash password 10) _ h]
  · intro h
    refine ⟨[("id", .num db.nextId), ("username", .str username)],
      { id := db.nextId, username := username, password := hash password 10 }, ?_⟩
    simp [createUser, insertUser_of_free db username (hash password 10) _ h,
      returning, UserRow.toObj, List.lookup]

theorem createUser_duplicate_or_added_witness :
    createUser sampleHash ⟨[⟨1, "alice", "h"⟩], 2⟩ "alice" "pw2"
      = (.error .DuplicateUsername, ⟨[⟨1, "alice", "h"⟩], 2⟩) ∧
    ∃ row newUser,
      (createUser sampleHash ⟨[⟨1, "alice", "h"⟩], 2⟩ "bob" "pw").1 = .ok (some row) ∧
      (createUser sampleHash ⟨[⟨1, "alice", "h"⟩], 2⟩ "bob" "pw").2.users
        = [⟨1, "alice", "h"⟩] ++ [newUser] ∧
      (createUser sampleHash ⟨[⟨1, "alice", "h"⟩], 2⟩ "bob" "pw").2.users.length
        = [(⟨1, "alice", "h"⟩ : UserRow)].length + 1 ∧
      newUser.username = "bob" ∧ newUser.password = sampleHash "pw" 10 :=
  ⟨(createUser_duplicate_or_added sampleHash ⟨[⟨1, "alice", "h"⟩], 2⟩ "alice" "pw2").1
      ⟨⟨1, "alice", "h"⟩, by decide, rfl⟩,
   (createUser_duplicate_or_added sampleHash ⟨[⟨1, "alice", "h"⟩], 2⟩ "bob" "pw").2
      (by decide)⟩

/-- C6: whenever `createUser` succeeds, the value it returns is the object
with exactly the fields `id` (the new user's identifier) and `username` (the
given username); it has no `password` field, and it is the same value for
every other password and every other hash function, so it carries neither
the plaintext password nor the stored hash. -/
theorem createUser_returns_identity (hash : String → Nat → String) (db db1 : Db)
    (username password : String) (result : Option Obj)
    (h : createUser hash db username password = (.ok result, db1)) :
    result = some [("id", .num db.nextId), ("username", .str username)] ∧
    (∀ row : Obj, result = some row →
      row.keys = ["id", "username"] ∧ row.get "password" = none) ∧
    (∃ newUser, db1.users = db.users ++ [newUser] ∧ newUser.id = db.nextId ∧
      newUser.password = hash password 10) ∧
    (∀ (hash1 : String → Nat → String) (password1 : String),
      (createUser hash1 db username password1).1 = .ok result) := by
  by_cases hex : ∃ u ∈ db.users, u.username = username
  · simp [createUser, insertUser_of_taken db username (hash password 10) _ hex] at h
  · have hfree : ∀ u ∈ db.users, u.username ≠ username := by
      intro u hu hname
      exact hex ⟨u, hu, hname⟩
    have hres : ∀ (hash1 : String → Nat → String) (password1 : String),
        createUser hash1 db username password1
          = (.ok (some [("id", .num db.nextId), ("username", .str username)]),
             { users := db.users ++ [{ id := db.nextId, username := username,
                                       password := hash1 password1 10 }],
               nextId := db.nextId + 1 }) := by
      intro hash1 password1
      simp [createUser, insertUser_of_free db username (hash1 password1 10) _ hfree,
        returning, UserRow.toObj, List.lookup]
    rw [hres hash password] at h
    have h1 : some [("id", Value.num db.nextId), ("username", Value.str username)] = result :=
      Except.ok.inj (congrArg Prod.fst h)
    have h2 := congrArg Prod.snd h
    simp only at h2
    subst h1
    subst h2
    refine ⟨rfl, ?_, ⟨_, rfl, rfl, rfl⟩, ?_⟩
    · intro row hrow
      cases hrow
      exact ⟨rfl, by simp [Obj.get, List.lookup]⟩
    · intro hash1 password1
      rw [hres hash1 password1]

theorem createUser_returns_identity_witness :
    some [("id", Value.num 2), ("username", Value.str "bob")]
      = some [("id", .num (⟨[⟨1, "alice", "h"⟩], 2⟩ : Db).nextId), ("username", .str "bob")] ∧
    (∀ row : Obj, some [("id", Value.num 2), ("username", Value.str "bob")] = some row →
      row.keys = ["id", "username"] ∧ row.get "password" = none) ∧
    (∃ newUser, (⟨[⟨1, "alice", "h"⟩, ⟨2, "bob", sampleHash "pw" 10⟩], 3⟩ : Db).users
        = (⟨[⟨1, "alice", "h"⟩], 2⟩ : Db).users ++ [newUser] ∧
      newUser.id = (⟨[⟨1, "alice", "h"⟩], 2⟩ : Db).nextId ∧
      newUser.password = sampleHash "pw" 10) ∧
    (∀ (hash1 : String → Nat → String) (password1 : String),
      (createUser hash1 ⟨[⟨1, "alice", "h"⟩], 2⟩ "bob" password1).1
        = .ok (some [("id", Value.num 2), ("username", Value.str "bob")])) :=
  createUser_returns_identity sampleHash ⟨[⟨1, "alice", "h"⟩], 2⟩
    ⟨[⟨1, "alice", "h"⟩, ⟨2, "bob", sampleHash "pw" 10⟩], 3⟩ "bob" "pw"
    (some [("id", .num 2), ("username", .str "bob")]) rfl

/-! ## The task list: toggling completion -/

/-- Toggling the completion flag of a task twice gives the task back. -/
theorem Task.toggle_toggle (t : Task) :
    ({ ({ t with is_complete := !t.is_complete } : Task) with
        is_complete := !(!t.is_complete) } : Task) = t := by
  cases t
  simp

/-- With pairwise distinct identifiers, the task found for `id` is the only
task of the list with that identifier. -/
theorem eq_of_find_of_nodup (tasks : List Task) (id : Int) (t0 : Task)
    (hnodup : (tasks.map Task.id).Nodup)
    (hfind : tasks.find? (fun task => task.id = id) = some t0) :
    ∀ task ∈ tasks, task.id = id → task = t0 := by
  intro task hmem hid
  have h0mem : t0 ∈ tasks := List.mem_of_find?_eq_some hfind
  have h0id : t0.id = id := by
    have := List.find?_some hfind
    simpa using this
  exact List.inj_on_of_nodup_map hnodup hmem h0mem (hid.trans h0id.symm)

/-- Replacing every task with identifier `id` by a task with the same
identifier does not change which position `find?` reports. -/
theorem find_map_replace (tasks : List Task) (id : Int) (t0 t1 : Task)
    (h1 : t1.id = id)
    (hfind : tasks.find? (fun task => task.id = id) = some t0) :
    (tasks.map (fun task => if task.id = id then t1 else task)).find?
      (fun task => task.id = id) = some t1 := by
  induction tasks with
  | nil => simp at hfind
  | cons a as ih =>
    by_cases ha : a.id = id
    · simp [List.find?, ha, h1]
    · have hfind1 : as.find? (fun task => task.id = id) = some t0 := by
        simpa [List.find?, ha] using hfind
      simpa [List.find?, ha] using ih hfind1

/-- A successful toggle, spelled out. -/
theorem handleToggleComplete_ok (tok : String) (api : Request → Option Task) (s : State)
    (id : Int) (t0 : Task) (htok : tok ≠ "")
    (hfind : s.tasks.find? (fun task => task.id = id) = some t0)
    (hput : ∀ r ∈ (handleToggleComplete (some tok) api s id).requests, (api r).isSome) :
    (handleToggleComplete (some tok) api s id).requests
      = [{ method := .PUT, url := taskUrl id,
           body := Task.toObj { t0 with is_complete := !t0.is_complete },
           headers := authHeaders tok }] ∧
    (handleToggleComplete (some tok) api s id).state.tasks
      = s.tasks.map (fun task =>
          if task.id = id then { t0 with is_complete := !t0.is_complete } else task) := by
  cases hapi : api { method := .PUT, url := taskUrl id,
                     body := Task.toObj { t0 with is_complete := !t0.is_complete },
                     headers := authHeaders tok } with
  | none =>
    have hreq : (handleToggleComplete (some tok) api s id).requests
        = [{ method := .PUT, url := taskUrl id,
             body := Task.toObj { t0 with is_complete := !t0.is_complete },
             headers := authHeaders tok }] := by
      simp [handleToggleComplete, truthy, htok, hfind, hapi]
    have := hput _ (by rw [hreq]; exact List.mem_singleton.mpr rfl)
    rw [hapi] at this
    exact absurd this (by simp)
  | some data =>
    constructor <;> simp [handleToggleComplete, truthy, htok, hfind, hapi]

/-- C8: for every task list the component holds and every identifier of a
task in it, two successive runs of `handleToggleComplete` on that identifier,
each issuing one PUT request that succeeds, give back the original task
list: same tasks, same fields, same order; the first run does flip the
completion status of the task.  The task lists of the component come from
the responses of the task store, whose identifiers are unique, and the
component uses `task.id` as the key of each rendered task: `hnodup` is this
invariant of the data model. -/
theorem handleToggleComplete_twice (tok : String) (api : Request → Option Task)
    (s : State) (id : Int)
    (htok : tok ≠ "")
    (hnodup : (s.tasks.map Task.id).Nodup)
    (hmem : ∃ t ∈ s.tasks, t.id = id)
    (hput1 : ∀ r ∈ (handleToggleComplete (some tok) api s id).requests, (api r).isSome)
    (hput2 : ∀ r ∈ (handleToggleComplete (some tok) api
        (handleToggleComplete (some tok) api s id).state id).requests, (api r).isSome) :
    (handleToggleComplete (some tok) api
        (handleToggleComplete (some tok) api s id).state id).state.tasks = s.tasks ∧
    localStatus (handleToggleComplete (some tok) api s id).state.tasks id
      = (localStatus s.tasks id).map (fun b => !b) ∧
    (localStatus s.tasks id).isSome = true ∧
    ((handleToggleComplete (some tok) api s id).requests.map (fun r => (r.method, r.url))
      = [(.PUT, taskUrl id)]) ∧
    ((handleToggleComplete (some tok) api
        (handleToggleComplete (some tok) api s id).state id).requests.map
          (fun r => (r.method, r.url)) = [(.PUT, taskUrl id)]) := by
  obtain ⟨t, ht, hid⟩ := hmem
  have hsome : (s.tasks.find? (fun task => task.id = id)).isSome = true := by
    rw [List.find?_isSome]
    exact ⟨t, ht, by simpa using hid⟩
  obtain ⟨t0, hfind⟩ := Option.isSome_iff_exists.mp hsome
  have h0id : t0.id = id := by
    have := List.find?_some hfind
    simpa using this
  obtain ⟨hreq1, htasks1⟩ := handleToggleComplete_ok tok api s id t0 htok hfind hput1
  have hfind1 : (handleToggleComplete (some tok) api s id).state.tasks.find?
      (fun task => task.id = id) = some { t0 with is_complete := !t0.is_complete } := by
    rw [htasks1]
    exact find_map_replace s.tasks id t0 _ h0id hfind
  obtain ⟨hreq2, htasks2⟩ := handleToggleComplete_ok tok api
    (handleToggleComplete (some tok) api s id).state id _ htok hfind1 hput2
  have huniq := eq_of_find_of_nodup s.tasks id t0 hnodup hfind
  refine ⟨?_, ?_, ?_, ?_, ?_⟩
  · rw [htasks2, htasks1, List.map_map]
    conv_rhs => rw [← List.map_id s.tasks]
    apply List.map_congr_left
    intro task hmem
    by_cases hc : task.id = id
    · have e := huniq task hmem hc
      have h1 : ({ t0 with is_complete := !t0.is_complete } : Task).id = id := h0id
      simp only [Function.comp_apply, id_eq]
      rw [if_pos hc, if_pos h1, e]
      exact Task.toggle_toggle t0
    · simp only [Function.comp_apply, id_eq]
      rw [if_neg hc, if_neg hc]
  · simp only [localStatus, hfind1, hfind, Option.map_some']
  · simp [localStatus, hfind]
  · rw [hreq1]; rfl
  · rw [hreq2]; rfl

theorem handleToggleComplete_twice_witness :
    (handleToggleComplete (some "tok") sampleApi
        (handleToggleComplete (some "tok") sampleApi
          (sampleState [⟨1, "a", "b", false⟩, ⟨2, "c", "d", true⟩]) 2).state 2).state.tasks
      = (sampleState [⟨1, "a", "b", false⟩, ⟨2, "c", "d", true⟩]).tasks ∧
    localStatus (handleToggleComplete (some "tok") sampleApi
        (sampleState [⟨1, "a", "b", false⟩, ⟨2, "c", "d", true⟩]) 2).state.tasks 2
      = (localStatus (sampleState [⟨1, "a", "b", false⟩, ⟨2, "c", "d", true⟩]).tasks 2).map
          (fun b => !b) ∧
    (localStatus (sampleState [⟨1, "a", "b", false⟩, ⟨2, "c", "d", true⟩]).tasks 2).isSome
      = true ∧
    ((handleToggleComplete (some "tok") sampleApi
        (sampleState [⟨1, "a", "b", false⟩, ⟨2, "c", "d", true⟩]) 2).requests.map
          (fun r => (r.method, r.url)) = [(.PUT, taskUrl 2)]) ∧
    ((handleToggleComplete (some "tok") sampleApi
        (handleToggleComplete (some "tok") sampleApi
          (sampleState [⟨1, "a", "b", false⟩, ⟨2, "c", "d", true⟩]) 2).state 2).requests.map
          (fun r => (r.method, r.url)) = [(.PUT, taskUrl 2)]) :=
  handleToggleComplete_twice "tok" sampleApi
    (sampleState [⟨1, "a", "b", false⟩, ⟨2, "c", "d", true⟩]) 2
    (by decide) (by decide) ⟨⟨2, "c", "d", true⟩, by decide, rfl⟩
    (fun _ _ => rfl) (fun _ _ => rfl)

/-! ## The task list: what the PUT requests carry -/

/-- C9 fails on the code.  Editing the title of a completed task sends
`isComplete: false` while the local list keeps the task completed; and the
body sent by `handleToggleComplete` has the fields `id`, `title`,
`description`, `is_complete` and no field `isComplete`. -/
theorem put_body_disagrees_with_local_status :
    (handleSaveTask (some "tok") sampleApi
        (editingState [⟨1, "a", "b", true⟩] ⟨1, "a", "b", true⟩ ⟨"c", "b"⟩)).requests
      = [{ method := .PUT, url := "/tasks/1",
           body := [("title", .str "c"), ("description", .str "b"),
                    ("isComplete", .bool false)],
           headers := [("Authorization", .str "Bearer tok")] }] ∧
    (handleSaveTask (some "tok") sampleApi
        (editingState [⟨1, "a", "b", true⟩] ⟨1, "a", "b", true⟩ ⟨"c", "b"⟩)).state.tasks
      = [⟨1, "c", "b", true⟩] ∧
    localStatus (handleSaveTask (some "tok") sampleApi
        (editingState [⟨1, "a", "b", true⟩] ⟨1, "a", "b", true⟩ ⟨"c", "b"⟩)).state.tasks 1
      = some true ∧
    (handleToggleComplete (some "tok") sampleApi
        (sampleState [⟨1, "a", "b", true⟩]) 1).requests
      = [{ method := .PUT, url := "/tasks/1",
           body := [("id", .num 1), ("title", .str "a"), ("description", .str "b"),
                    ("is_complete", .bool false)],
           headers := [("Authorization", .str "Bearer tok")] }] ∧
    ((handleToggleComplete (some "tok") sampleApi
        (sampleState [⟨1, "a", "b", true⟩]) 1).requests.map
          (fun r => r.body.get "isComplete")) = [none] := by
  decide

end TaskTracker
